import Mathlib

/-!
Verification of the proactive-agent subsystem of nemori-desktop
(`backend/proactive/core.py`, `backend/proactive/task_scheduler.py`,
`backend/proactive/wakeup.py`).

Timestamps are modelled as `Int` (epoch milliseconds); `datetime.now()`
becomes an explicit `now : Int` parameter, one logical instant per
synchronous step of the Python code.  Durations (`timedelta`) are `Int`
milliseconds; Python truthiness of `Optional[timedelta]` (falsy when the
value is `None` or the zero duration) is modelled explicitly.  A raised
`ValueError` is modelled by `Except`.
-/

set_option linter.unusedVariables false

/-- `AgentState` enum from `core.py`. -/
inductive AgentState where
  | sleeping
  | wakingUp
  | awake
  | working
  | goingToSleep
deriving DecidableEq, Repr

/-- `StateTransition` dataclass from `core.py` (the `metadata` dict, which
always stays at its empty default, is omitted). -/
structure StateTransition where
  fromState : AgentState
  toState : AgentState
  timestamp : Int
  reason : String
deriving DecidableEq, Repr

/-- `AgentContext` dataclass from `core.py`. -/
structure AgentContext where
  currentState : AgentState
  lastWakeup : Option Int
  lastSleep : Option Int
  tasksCompletedToday : Nat
  nextScheduledTask : Option Int
  userIsActive : Bool
  profileLastUpdated : Option Int
deriving DecidableEq, Repr

/-- Payload of the `ValueError` raised by `ProactiveCore._transition_to`
on an invalid transition. -/
structure TransitionError where
  fromState : AgentState
  toState : AgentState
deriving DecidableEq, Repr

/-- The mutable state-machine fields of `ProactiveCore` (`_state`,
`_transitions`, `_context`).  The lazily-loaded component references,
listener list and asyncio plumbing have no effect on these fields and are
not part of the model; the listener callbacks in `_transition_to` are
invoked after all mutations and their failures are swallowed. -/
structure ProactiveCore where
  state : AgentState
  transitions : List StateTransition
  context : AgentContext
deriving DecidableEq, Repr

/-- `ProactiveCore._is_valid_transition`: the transition-table dict. -/
def isValidTransition (fromState toState : AgentState) : Bool :=
  match fromState, toState with
  | .sleeping, .wakingUp => true
  | .wakingUp, .awake => true
  | .wakingUp, .sleeping => true
  | .awake, .working => true
  | .awake, .goingToSleep => true
  | .awake, .sleeping => true
  | .working, .awake => true
  | .working, .goingToSleep => true
  | .goingToSleep, .sleeping => true
  | .goingToSleep, .awake => true
  | _, _ => false

/-- The trim in `_transition_to`: `if len > 100: keep the last 100`. -/
def trimTransitions (l : List StateTransition) : List StateTransition :=
  if 100 < l.length then l.drop (l.length - 100) else l

/-- `ProactiveCore._transition_to`: validate against the table (raising
`ValueError` if invalid), append a `StateTransition` record, trim the log
to the last 100 entries, update `_state` and `_context.current_state`,
and set `last_wakeup` / `last_sleep` when entering `AWAKE` / `SLEEPING`. -/
def ProactiveCore.transitionTo (c : ProactiveCore) (newState : AgentState)
    (reason : String) (now : Int) : Except TransitionError ProactiveCore :=
  if isValidTransition c.state newState then
    let record : StateTransition :=
      { fromState := c.state, toState := newState, timestamp := now, reason := reason }
    .ok { state := newState,
          transitions := trimTransitions (c.transitions ++ [record]),
          context := { c.context with
            currentState := newState,
            lastWakeup := if newState = .awake then some now else c.context.lastWakeup,
            lastSleep := if newState = .sleeping then some now else c.context.lastSleep } }
  else
    .error { fromState := c.state, toState := newState }

/-- `date()` of an epoch-millisecond timestamp: the calendar-day bucket. -/
def dateOf (t : Int) : Int :=
  t.ediv 86400000

/-- `ProactiveCore._on_wakeup` restricted to the state-machine fields: it
resets `tasks_completed_today` when the date has rolled over since
`last_wakeup`.  (Reloading the profile summary and
`ensure_daily_tasks` act on the lazily-loaded collaborators, not on the
state machine; `_state` is untouched.) -/
def onWakeup (c : ProactiveCore) (now : Int) : ProactiveCore :=
  match c.context.lastWakeup with
  | some lw =>
      if dateOf lw < dateOf now then
        { c with context := { c.context with tasksCompletedToday := 0 } }
      else c
  | none => c

/-- `ProactiveCore.wake_up`: returns `false` unless the state is
`SLEEPING` or `GOING_TO_SLEEP`; otherwise transitions to `WAKING_UP`,
runs `_on_wakeup`, transitions to `AWAKE` and returns `true`.  The
`ValueError` of `_transition_to` is not caught and propagates. -/
def ProactiveCore.wakeUp (c : ProactiveCore) (reason : String) (now : Int) :
    Except TransitionError (Bool × ProactiveCore) :=
  if c.state ≠ .sleeping ∧ c.state ≠ .goingToSleep then
    .ok (false, c)
  else
    match c.transitionTo .wakingUp reason now with
    | .error e => .error e
    | .ok c1 =>
        let c2 := onWakeup c1 now
        match c2.transitionTo .awake "Initialization complete" now with
        | .error e => .error e
        | .ok c3 => .ok (true, c3)

/-- `ProactiveCore.go_to_sleep`: returns `true` unchanged if already
`SLEEPING`, `false` unchanged if `WORKING`; otherwise transitions to
`GOING_TO_SLEEP` (running `_on_going_to_sleep`, a no-op) and then to
`SLEEPING`, returning `true`. -/
def ProactiveCore.goToSleep (c : ProactiveCore) (reason : String) (now : Int) :
    Except TransitionError (Bool × ProactiveCore) :=
  if c.state = .sleeping then
    .ok (true, c)
  else if c.state = .working then
    .ok (false, c)
  else
    match c.transitionTo .goingToSleep reason now with
    | .error e => .error e
    | .ok c1 =>
        match c1.transitionTo .sleeping "Sleep preparation complete" now with
        | .error e => .error e
        | .ok c2 => .ok (true, c2)

/-- `ProactiveCore.force_state`: sets the state without validation,
appends a `[FORCED]` transition record (without trimming the log), and
does not touch the `last_wakeup` / `last_sleep` timestamps. -/
def ProactiveCore.forceState (c : ProactiveCore) (newState : AgentState)
    (reason : String) (now : Int) : ProactiveCore :=
  { state := newState,
    context := { c.context with currentState := newState },
    transitions := c.transitions ++
      [{ fromState := c.state, toState := newState, timestamp := now,
         reason := "[FORCED] " ++ reason }] }

/-- The fields set by `ProactiveCore.__init__`. -/
def initialCore : ProactiveCore :=
  { state := .sleeping,
    transitions := [],
    context := { currentState := .sleeping, lastWakeup := none, lastSleep := none,
                 tasksCompletedToday := 0, nextScheduledTask := none,
                 userIsActive := false, profileLastUpdated := none } }

/-- The transition table exactly as enumerated by the specification:
Sleeping to WakingUp; WakingUp to Awake or Sleeping; Awake to Working,
GoingToSleep or Sleeping; Working to Awake or GoingToSleep; GoingToSleep
to Sleeping or Awake. -/
def specTransitionTable (f t : AgentState) : Prop :=
  (f = .sleeping ∧ t = .wakingUp) ∨
  (f = .wakingUp ∧ (t = .awake ∨ t = .sleeping)) ∨
  (f = .awake ∧ (t = .working ∨ t = .goingToSleep ∨ t = .sleeping)) ∨
  (f = .working ∧ (t = .awake ∨ t = .goingToSleep)) ∨
  (f = .goingToSleep ∧ (t = .sleeping ∨ t = .awake))

instance (f t : AgentState) : Decidable (specTransitionTable f t) := by
  unfold specTransitionTable
  infer_instance

theorem specTable_iff_valid (f t : AgentState) :
    specTransitionTable f t ↔ isValidTransition f t = true := by
  cases f <;> cases t <;> decide

/-- `TaskType` enum from `task_scheduler.py`. -/
inductive TaskType where
  | selfReflection
  | updateProfile
  | consolidateKnowledge
  | discoverPatterns
  | learnFromHistory
  | summarizePeriod
  | exploreTopic
  | fillKnowledgeGap
  | healthCheck
  | cleanup
deriving DecidableEq, Repr

/-- `TaskStatus` enum from `task_scheduler.py`. -/
inductive TaskStatus where
  | pending
  | scheduled
  | inProgress
  | completed
  | failed
  | cancelled
deriving DecidableEq, Repr

/-- `ProactiveTask` dataclass from `task_scheduler.py`.  The open
`context` dict is modelled as an association list of strings. -/
structure ProactiveTask where
  id : String
  type : TaskType
  title : String
  description : String
  scheduledTime : Option Int
  recurring : Bool
  recurrenceInterval : Option Int
  priority : Int
  status : TaskStatus
  createdAt : Int
  startedAt : Option Int
  completedAt : Option Int
  executionTimeMs : Option Int
  result : Option String
  error : Option String
  targetFile : Option String
  context : List (String × String)
deriving DecidableEq, Repr

/-- `ProactiveTask.is_due`: due when the status is `PENDING` or
`SCHEDULED` and the scheduled time (if any) has been reached. -/
def ProactiveTask.isDue (t : ProactiveTask) (now : Int) : Bool :=
  if t.status ≠ .pending ∧ t.status ≠ .scheduled then false
  else
    match t.scheduledTime with
    | none => true
    | some st => st ≤ now

/-- The second component of the sort key in `add_task`:
`t.scheduled_time or datetime.max`, with the missing time mapped to the
top element. -/
def timeKey : Option Int → WithTop Int
  | none => ⊤
  | some x => (x : WithTop Int)

/-- The ordering induced by the `add_task` sort key
`(-t.priority, t.scheduled_time or datetime.max)`: priority descending,
then scheduled time ascending with missing times last. -/
def taskLe (a b : ProactiveTask) : Prop :=
  b.priority < a.priority ∨
    (a.priority = b.priority ∧ timeKey a.scheduledTime ≤ timeKey b.scheduledTime)

instance : DecidableRel taskLe := by
  intro a b
  unfold taskLe
  infer_instance

instance : IsTotal ProactiveTask taskLe := by
  constructor
  intro a b
  rcases lt_trichotomy a.priority b.priority with h | h | h
  · exact Or.inr (Or.inl h)
  · rcases le_total (timeKey a.scheduledTime) (timeKey b.scheduledTime) with h2 | h2
    · exact Or.inl (Or.inr ⟨h, h2⟩)
    · exact Or.inr (Or.inr ⟨h.symm, h2⟩)
  · exact Or.inl (Or.inl h)

instance : IsTrans ProactiveTask taskLe := by
  constructor
  intro a b c hab hbc
  rcases hab with hab | ⟨hab, hab2⟩
  · rcases hbc with hbc | ⟨hbc, _⟩
    · exact Or.inl (hbc.trans hab)
    · exact Or.inl (hbc ▸ hab)
  · rcases hbc with hbc | ⟨hbc, hbc2⟩
    · exact Or.inl (hab.symm ▸ hbc)
    · exact Or.inr ⟨hab.trans hbc, hab2.trans hbc2⟩

/-- `self._tasks.sort(key=lambda t: (-t.priority, t.scheduled_time or
datetime.max))`.  Python's list sort is stable, and any two stable sorts
with the same total preorder produce the same output list, so insertion
sort is an exact model. -/
def sortTasks (l : List ProactiveTask) : List ProactiveTask :=
  List.insertionSort taskLe l

/-- The mutable queue fields of `TaskScheduler`: the active list
`_tasks` and the history list `_task_history` (most recent first).
Database persistence is best-effort mirroring of this in-memory state
and is not modelled. -/
structure SchedState where
  tasks : List ProactiveTask
  history : List ProactiveTask
deriving DecidableEq, Repr

/-- `TaskScheduler._max_tasks_in_queue`. -/
def maxTasksInQueue : Nat := 100

/-- `TaskScheduler._max_history_size`. -/
def maxHistorySize : Nat := 500

/-- `TaskScheduler._cleanup_queue`: keep only pending, scheduled and
in-progress tasks. -/
def cleanupQueue (l : List ProactiveTask) : List ProactiveTask :=
  l.filter fun t =>
    t.status == .pending || t.status == .scheduled || t.status == .inProgress

/-- `TaskScheduler.add_task`: a duplicate id is a no-op returning the
existing id; otherwise run the defensive cleanup when the queue is at
its cap, append, and re-sort by the priority key. -/
def addTask (task : ProactiveTask) (s : SchedState) : String × SchedState :=
  if s.tasks.any (fun t => t.id == task.id) then
    (task.id, s)
  else
    let ts := if maxTasksInQueue ≤ s.tasks.length then cleanupQueue s.tasks else s.tasks
    (task.id, { s with tasks := sortTasks (ts ++ [task]) })

/-- `TaskScheduler.get_next_task`: the first due task in queue order. -/
def getNextTask (now : Int) (s : SchedState) : Option ProactiveTask :=
  s.tasks.find? (fun t => t.isDue now)

/-- `TaskScheduler.has_due_tasks`. -/
def hasDueTasks (now : Int) (s : SchedState) : Bool :=
  s.tasks.any (fun t => t.isDue now)

/-- Python truthiness of an `Optional[timedelta]`: falsy when `None` or
the zero duration. -/
def tdTruthy : Option Int → Bool
  | none => false
  | some iv => iv != 0

/-- In-place mutation of a task object that is aliased into the active
list: every queue entry with the task's id is replaced by the updated
record. -/
def replaceTask (t : ProactiveTask) (l : List ProactiveTask) : List ProactiveTask :=
  l.map fun u => if u.id == t.id then t else u

/-- The new task synthesized by `_reschedule_recurring_task`: fresh id,
same type, title, description, priority, target file and (copied)
context, scheduled at `now + interval`, recurring with the same
interval; the remaining fields take their dataclass defaults. -/
def rescheduledTask (now : Int) (freshId : String) (iv : Int)
    (task : ProactiveTask) : ProactiveTask :=
  { id := freshId, type := task.type, title := task.title,
    description := task.description, scheduledTime := some (now + iv),
    recurring := true, recurrenceInterval := some iv,
    priority := task.priority, status := .pending, createdAt := now,
    startedAt := none, completedAt := none, executionTimeMs := none,
    result := none, error := none, targetFile := task.targetFile,
    context := task.context }

/-- `TaskScheduler._reschedule_recurring_task`: guarded by Python
truthiness of `recurring` and `recurrence_interval`, builds the new task
and `add_task`s it. -/
def rescheduleRecurringTask (now : Int) (freshId : String)
    (task : ProactiveTask) (s : SchedState) : SchedState :=
  if task.recurring && tdTruthy task.recurrenceInterval then
    match task.recurrenceInterval with
    | some iv => (addTask (rescheduledTask now freshId iv task) s).2
    | none => s
  else s

/-- `TaskScheduler._move_to_history`: drop the task's id from the active
list, prepend the task to the history (most recent first) and trim the
history to the last-500 cap. -/
def moveToHistory (task : ProactiveTask) (s : SchedState) : SchedState :=
  let h := task :: s.history
  { tasks := s.tasks.filter (fun t => t.id != task.id),
    history := if maxHistorySize < h.length then h.take maxHistorySize else h }

/-- `TaskScheduler.execute_task`.  The black-box executor call
`_execute_task_by_type` is abstracted as the `outcome` parameter: `.ok`
carries its result string, `.error` the message of a raised exception.
`startT` is the instant `started_at` is taken, `finT` the instant of the
completion step (status, `completed_at`, recurrence scheduling).  Field
mutations on the aliased task object are mirrored into the queue via
`replaceTask`. -/
def executeTask (startT finT : Int) (freshId : String)
    (outcome : Except String String) (task : ProactiveTask)
    (s : SchedState) : Bool × SchedState :=
  let t1 : ProactiveTask := { task with status := .inProgress, startedAt := some startT }
  let s1 : SchedState := { s with tasks := replaceTask t1 s.tasks }
  match outcome with
  | .ok r =>
      let t2 : ProactiveTask :=
        { t1 with
          status := .completed
          completedAt := some finT
          executionTimeMs := some (finT - startT)
          result := some r }
      let s2 : SchedState := { s1 with tasks := replaceTask t2 s1.tasks }
      let s3 := if t2.recurring && tdTruthy t2.recurrenceInterval then
                  rescheduleRecurringTask finT freshId t2 s2
                else s2
      (true, moveToHistory t2 s3)
  | .error e =>
      let t2 : ProactiveTask :=
        { t1 with
          status := .failed
          completedAt := some finT
          error := some e }
      let s2 : SchedState := { s1 with tasks := replaceTask t2 s1.tasks }
      (false, moveToHistory t2 s2)

/-- The loop body of `TaskScheduler.cancel_task`: find the first active
task with the given id whose status is `PENDING` or `SCHEDULED` and set
its status to `CANCELLED`.  The source then calls the async
`_move_to_history(task)` without awaiting it, so the created coroutine
never runs: the task stays in the active list and the history is not
touched. -/
def cancelTaskAux (i : String) : List ProactiveTask → Option (List ProactiveTask)
  | [] => none
  | t :: ts =>
      if t.id == i && (t.status == .pending || t.status == .scheduled) then
        some ({ t with status := .cancelled } :: ts)
      else
        match cancelTaskAux i ts with
        | some ts2 => some (t :: ts2)
        | none => none

/-- `TaskScheduler.cancel_task` (see `cancelTaskAux` for the un-awaited
`_move_to_history` call). -/
def cancelTask (i : String) (s : SchedState) : Bool × SchedState :=
  match cancelTaskAux i s.tasks with
  | some ts2 => (true, { s with tasks := ts2 })
  | none => (false, s)

/-- `TaskScheduler.list_history`: `self._task_history[-limit:]` (the
serialization through `to_dict` is omitted).  A Python slice `[-limit:]`
with `limit = 0` is the whole list. -/
def listHistory (limit : Nat) (s : SchedState) : List ProactiveTask :=
  if limit = 0 then s.history
  else s.history.drop (s.history.length - limit)

/-- `WakeupTriggerType` enum from `wakeup.py`. -/
inductive WakeupTriggerType where
  | scheduled
  | periodic
  | taskDue
  | newData
  | userRequest
  | system
deriving DecidableEq, Repr

/-- `WakeupTrigger` dataclass from `wakeup.py` (the unused `condition`
and `metadata` fields are omitted). -/
structure WakeupTrigger where
  id : String
  type : WakeupTriggerType
  name : String
  enabled : Bool
  scheduledTime : Option Int
  interval : Option Int
  lastTriggered : Option Int
  priority : Int
  reason : String
deriving DecidableEq, Repr

/-- `WakeupTrigger.is_due`: a disabled trigger is never due; a
`SCHEDULED` trigger is due once its time is reached unless it already
fired at or after that time; a `PERIODIC` trigger with a truthy interval
is due when never triggered or when the interval has elapsed; every
other type falls through to `False`. -/
def WakeupTrigger.isDue (tr : WakeupTrigger) (now : Int) : Bool :=
  if tr.enabled = false then false
  else
    match tr.type with
    | .scheduled =>
        match tr.scheduledTime with
        | some st =>
            if st ≤ now then
              match tr.lastTriggered with
              | some lt => if st ≤ lt then false else true
              | none => true
            else false
        | none => false
    | .periodic =>
        match tr.interval with
        | some iv =>
            if iv != 0 then
              match tr.lastTriggered with
              | none => true
              | some lt => if iv ≤ now - lt then true else false
            else false
        | none => false
    | _ => false

/-- The mutation `check_triggers` applies to the selected trigger: set
`last_triggered = now` and, for a one-shot `SCHEDULED` trigger, disable
it. -/
def fireUpdate (now : Int) (tr : WakeupTrigger) : WakeupTrigger :=
  let tr2 : WakeupTrigger := { tr with lastTriggered := some now }
  if tr2.type = .scheduled then { tr2 with enabled := false } else tr2

/-- `due_triggers.sort(key=priority, reverse=True); due_triggers[0]`:
the stable descending sort puts the first-registered trigger of maximal
priority in front, which is the fold keeping the earliest strict
maximum. -/
def pickHighest (t : WakeupTrigger) (ts : List WakeupTrigger) : WakeupTrigger :=
  ts.foldl (fun best u => if best.priority < u.priority then u else best) t

/-- `WakeupManager.check_triggers` on the `_triggers` list: filter the
due triggers, pick the highest-priority one, mark it fired (the object
is aliased into the list, so the list entry with its id is updated too)
and return it. -/
def checkTriggers (now : Int) (ts : List WakeupTrigger) :
    Option WakeupTrigger × List WakeupTrigger :=
  match ts.filter (fun t => t.isDue now) with
  | [] => (none, ts)
  | d :: ds =>
      let fired := pickHighest d ds
      (some (fireUpdate now fired),
       ts.map fun u => if u.id == fired.id then fireUpdate now u else u)

/-- Over a sequence of `check_triggers` calls at the given instants, no
call ever returns a trigger whose id is `i`. -/
def neverFires (i : String) : List Int → List WakeupTrigger → Prop
  | [], _ => True
  | n :: ns, ts =>
      (∀ t, (checkTriggers n ts).1 = some t → t.id ≠ i) ∧
      neverFires i ns (checkTriggers n ts).2

theorem trimTransitions_length_le (l : List StateTransition) :
    (trimTransitions l).length ≤ 100 := by
  by_cases h : 100 < l.length
  · simp only [trimTransitions, if_pos h, List.length_drop]
    omega
  · simp only [trimTransitions, if_neg h]
    omega

/-- C1: a transition request from a pair of states outside the table
(Sleeping to WakingUp; WakingUp to Awake or Sleeping; Awake to Working,
GoingToSleep or Sleeping; Working to Awake or GoingToSleep; GoingToSleep
to Sleeping or Awake) fails with an invalid-transition error, producing
no new state (the current state, the transition log and the context
timestamps are untouched); a pair inside the table succeeds, appending
exactly one new transition record (subject to the last-100 trim),
setting the state to the target, and updating `last_wakeup` /
`last_sleep` only on entering Awake / Sleeping. -/
theorem C1_transition_table (c : ProactiveCore) (t : AgentState)
    (reason : String) (now : Int) :
    (¬ specTransitionTable c.state t →
      c.transitionTo t reason now = .error { fromState := c.state, toState := t }) ∧
    (specTransitionTable c.state t →
      ∃ c2, c.transitionTo t reason now = .ok c2 ∧
        c2.state = t ∧
        c2.transitions = trimTransitions (c.transitions ++
          [{ fromState := c.state, toState := t, timestamp := now, reason := reason }]) ∧
        c2.context.lastWakeup
          = (if t = .awake then some now else c.context.lastWakeup) ∧
        c2.context.lastSleep
          = (if t = .sleeping then some now else c.context.lastSleep)) := by
  constructor
  · intro h
    have hv : isValidTransition c.state t = false := by
      rcases Bool.eq_false_or_eq_true (isValidTransition c.state t) with h2 | h2
      · exact absurd ((specTable_iff_valid _ _).mpr h2) h
      · exact h2
    simp [ProactiveCore.transitionTo, hv]
  · intro h
    have hv : isValidTransition c.state t = true := (specTable_iff_valid _ _).mp h
    simp only [ProactiveCore.transitionTo, hv, if_true]
    exact ⟨_, rfl, rfl, rfl, rfl, rfl⟩

/-- Witness for C1 at concrete inputs: from the initial (Sleeping) core,
a request for Awake is rejected and a request for WakingUp succeeds. -/
theorem C1_transition_table_witness :
    (initialCore.transitionTo .awake "x" 0 =
      .error { fromState := initialCore.state, toState := .awake }) ∧
    (∃ c2, initialCore.transitionTo .wakingUp "x" 0 = .ok c2 ∧
      c2.state = .wakingUp ∧
      c2.transitions = trimTransitions (initialCore.transitions ++
        [{ fromState := initialCore.state, toState := .wakingUp,
           timestamp := 0, reason := "x" }]) ∧
      c2.context.lastWakeup
        = (if AgentState.wakingUp = .awake then some 0 else initialCore.context.lastWakeup) ∧
      c2.context.lastSleep
        = (if AgentState.wakingUp = .sleeping then some 0 else initialCore.context.lastSleep)) :=
  ⟨(C1_transition_table initialCore .awake "x" 0).1 (by decide),
   (C1_transition_table initialCore .wakingUp "x" 0).2 (by decide)⟩

/-- A core forced into GOING_TO_SLEEP by the administrative
`force_state` escape hatch. -/
def coreGoingToSleep : ProactiveCore :=
  initialCore.forceState .goingToSleep "debug" 0

/-- A core forced into WORKING by `force_state`. -/
def coreWorking : ProactiveCore :=
  initialCore.forceState .working "debug" 0

/-- C2 (code bug, evaluation at the failing input): `wake_up` from
GOING_TO_SLEEP does not drive the machine to Awake and return true; the
guard admits GOING_TO_SLEEP but the transition table has no
GOING_TO_SLEEP to WAKING_UP edge, so `_transition_to` raises
`ValueError` and the exception propagates out of `wake_up`. -/
theorem C2_wakeup_goingToSleep_raises :
    coreGoingToSleep.state = .goingToSleep ∧
    coreGoingToSleep.wakeUp "User request" 1 =
      .error { fromState := .goingToSleep, toState := .wakingUp } := by
  exact ⟨rfl, rfl⟩

/-- C3 counterexample: with the current state already Sleeping,
`go_to_sleep` returns `true` (an idempotent success), not `false` as the
claim states. -/
theorem C3_goToSleep_sleeping_counterexample :
    initialCore.state = .sleeping ∧
    initialCore.goToSleep "test" 5 = .ok (true, initialCore) ∧
    ¬ ∃ c2, initialCore.goToSleep "test" 5 = .ok (false, c2) := by
  refine ⟨rfl, rfl, ?_⟩
  rintro ⟨c2, hc⟩
  rw [show initialCore.goToSleep "test" 5 = .ok (true, initialCore) from rfl] at hc
  simp at hc

/-- C3 as amended: `go_to_sleep` is a no-op in both denied-by-the-claim
cases, but it returns `true` when already Sleeping and `false` when
Working; in neither case does it raise or change the state. -/
theorem C3_goToSleep_amended (c : ProactiveCore) (reason : String) (now : Int) :
    (c.state = .sleeping → c.goToSleep reason now = .ok (true, c)) ∧
    (c.state = .working → c.goToSleep reason now = .ok (false, c)) := by
  constructor
  · intro h
    simp [ProactiveCore.goToSleep, h]
  · intro h
    simp [ProactiveCore.goToSleep, h]

/-- Witness for the amended C3 at concrete cores in the Sleeping and
Working states. -/
theorem C3_goToSleep_amended_witness :
    initialCore.goToSleep "w" 3 = .ok (true, initialCore) ∧
    coreWorking.goToSleep "w" 3 = .ok (false, coreWorking) :=
  ⟨(C3_goToSleep_amended initialCore "w" 3).1 rfl,
   (C3_goToSleep_amended coreWorking "w" 3).2 rfl⟩

theorem forceState_length (c : ProactiveCore) (t : AgentState)
    (reason : String) (now : Int) :
    (c.forceState t reason now).transitions.length = c.transitions.length + 1 := by
  simp [ProactiveCore.forceState]

theorem forceState_iterate_length (c : ProactiveCore) (n : Nat) :
    ((fun c2 => ProactiveCore.forceState c2 .awake "loop" 0)^[n] c).transitions.length
      = c.transitions.length + n := by
  induction n with
  | zero => simp
  | succ k ih =>
      rw [Function.iterate_succ_apply']
      simp only [forceState_length, ih]
      omega

/-- C8 counterexample: 101 consecutive `force_state` calls starting from
the initial core leave 101 records in the transition log, exceeding the
100-entry cap, because `force_state` appends without trimming. -/
theorem C8_forceState_counterexample :
    100 < ((fun c2 => ProactiveCore.forceState c2 .awake "loop" 0)^[101]
            initialCore).transitions.length := by
  rw [forceState_iterate_length initialCore 101]
  simp [initialCore]

/-- C8 as amended: after every successful `transition_to` the log holds
at most 100 records (the oldest beyond the cap are dropped), but
`force_state` appends one record without trimming, so a run of
`force_state` calls can push the log past 100 until the next successful
`transition_to` restores the cap. -/
theorem C8_transition_log_cap_amended (c : ProactiveCore) (t : AgentState)
    (reason : String) (now : Int) :
    (∀ c2, c.transitionTo t reason now = .ok c2 → c2.transitions.length ≤ 100) ∧
    (c.forceState t reason now).transitions.length = c.transitions.length + 1 := by
  constructor
  · intro c2 h
    unfold ProactiveCore.transitionTo at h
    by_cases hv : isValidTransition c.state t
    · simp only [hv, if_true, Except.ok.injEq] at h
      rw [← h]
      exact trimTransitions_length_le _
    · simp [hv] at h
  · simp [ProactiveCore.forceState]

/-- Witness for the amended C8: a successful concrete `transition_to`
stays within the cap and a concrete `force_state` grows the log by one. -/
theorem C8_transition_log_cap_witness :
    (match initialCore.transitionTo .wakingUp "w" 0 with
     | .ok c2 => c2.transitions.length ≤ 100
     | .error _ => False) ∧
    (initialCore.forceState .awake "w" 0).transitions.length
      = initialCore.transitions.length + 1 := by
  constructor
  · have heq : initialCore.transitionTo .wakingUp "w" 0 =
        .ok { state := .wakingUp,
              transitions := [{ fromState := .sleeping, toState := .wakingUp,
                                timestamp := 0, reason := "w" }],
              context := { currentState := .wakingUp, lastWakeup := none,
                           lastSleep := none, tasksCompletedToday := 0,
                           nextScheduledTask := none, userIsActive := false,
                           profileLastUpdated := none } } := rfl
    rw [heq]
    exact (C8_transition_log_cap_amended initialCore .wakingUp "w" 0).1 _ heq
  · exact (C8_transition_log_cap_amended initialCore .awake "w" 0).2

/-- A concrete pending task used by the example theorems. -/
def exTaskPending : ProactiveTask :=
  { id := "t1", type := .healthCheck, title := "Health", description := "check",
    scheduledTime := none, recurring := false, recurrenceInterval := none,
    priority := 5, status := .pending, createdAt := 0, startedAt := none,
    completedAt := none, executionTimeMs := none, result := none, error := none,
    targetFile := none, context := [] }

/-- A queue holding the single pending example task. -/
def exQueueState : SchedState :=
  { tasks := [exTaskPending], history := [] }

/-- C4 (code bug, evaluation at the failing input): cancelling the only
pending task returns `true` and sets its status to `CANCELLED`, but the
task is still in the active queue and the history is still empty,
because `cancel_task` calls the async `_move_to_history` without
awaiting it. -/
theorem C4_cancel_leaves_queue :
    cancelTask "t1" exQueueState =
      (true, { tasks := [{ exTaskPending with status := .cancelled }],
               history := [] }) := by
  rfl

/-- Two completed tasks used to populate a history. -/
def exDoneOld : ProactiveTask :=
  { exTaskPending with id := "h1", status := .completed }

/-- The more recently completed of the two example history tasks. -/
def exDoneNew : ProactiveTask :=
  { exTaskPending with id := "h2", status := .completed }

/-- A state whose history received `exDoneOld` first and `exDoneNew`
second, so the history list (most recent first) is
`[exDoneNew, exDoneOld]`. -/
def exHistState : SchedState :=
  moveToHistory exDoneNew (moveToHistory exDoneOld { tasks := [], history := [] })

/-- C7 (code bug, evaluation at the failing input): with a
most-recent-first history `[exDoneNew, exDoneOld]`, `list_history(1)`
returns the oldest entry `exDoneOld`, not the most recent entry, because
it slices `[-limit:]` from the front-loaded list. -/
theorem C7_listHistory_returns_oldest :
    exHistState.history = [exDoneNew, exDoneOld] ∧
    listHistory 1 exHistState = [exDoneOld] ∧
    listHistory 1 exHistState ≠ [exDoneNew] := by
  refine ⟨rfl, rfl, ?_⟩
  decide

/-- C6: `add_task` with a duplicate id leaves the queue unchanged (so
the sort invariant persists); a non-duplicate `add_task` re-sorts the
queue by (priority descending, scheduled time ascending with missing
times last); and `_move_to_history` filters the active queue, which
preserves the invariant. -/
theorem C6_queue_sorted_invariant (task : ProactiveTask) (s : SchedState) :
    (s.tasks.any (fun t => t.id == task.id) = true → (addTask task s).2 = s) ∧
    (List.Sorted taskLe s.tasks → List.Sorted taskLe (addTask task s).2.tasks) ∧
    (List.Sorted taskLe s.tasks → List.Sorted taskLe (moveToHistory task s).tasks) := by
  refine ⟨?_, ?_, ?_⟩
  · intro h
    simp [addTask, h]
  · intro hs
    unfold addTask
    cases h : s.tasks.any (fun t => t.id == task.id) with
    | true => simpa [h] using hs
    | false =>
        simp only [h, Bool.false_eq_true, if_false]
        exact List.sorted_insertionSort taskLe _
  · intro hs
    exact hs.filter _

/-- Witness for C6: a duplicate add is the identity on a concrete
one-task state, and the sort invariant holds after `add_task` and
`_move_to_history` there. -/
theorem C6_queue_sorted_witness :
    (addTask exTaskPending exQueueState).2 = exQueueState ∧
    List.Sorted taskLe (addTask exTaskPending exQueueState).2.tasks ∧
    List.Sorted taskLe (moveToHistory exTaskPending exQueueState).tasks := by
  have h := C6_queue_sorted_invariant exTaskPending exQueueState
  exact ⟨h.1 (by decide), h.2.1 (by decide), h.2.2 (by decide)⟩

theorem cancelTaskAux_some_spec (i : String) :
    ∀ ts ts2, cancelTaskAux i ts = some ts2 →
      (ts.map ProactiveTask.id).Nodup →
      ∀ t ∈ ts2, t.id = i → t.status ≠ .pending ∧ t.status ≠ .scheduled := by
  intro ts
  induction ts with
  | nil =>
      intro ts2 h
      simp [cancelTaskAux] at h
  | cons a as ih =>
      intro ts2 h hnd t ht hti
      unfold cancelTaskAux at h
      by_cases hg : (a.id == i && (a.status == .pending || a.status == .scheduled)) = true
      · rw [if_pos hg] at h
        have hts2 : ts2 = { a with status := .cancelled } :: as := by
          exact (Option.some.injEq _ _).mp h.symm
        subst hts2
        rcases List.mem_cons.mp ht with h1 | h1
        · subst h1
          exact ⟨by simp, by simp⟩
        · exfalso
          have haid : a.id = i := by
            have := (Bool.and_eq_true _ _).mp hg
            exact beq_iff_eq.mp this.1
          have : i ∈ as.map ProactiveTask.id := by
            exact List.mem_map.mpr ⟨t, h1, hti⟩
          rw [List.map_cons] at hnd
          exact (List.nodup_cons.mp hnd).1 (haid ▸ this)
      · rw [if_neg hg] at h
        cases haux : cancelTaskAux i as with
        | none =>
            rw [haux] at h
            exact absurd h (by simp)
        | some ts3 =>
            rw [haux] at h
            have hts2 : ts2 = a :: ts3 := by
              exact (Option.some.injEq _ _).mp h.symm
            subst hts2
            rcases List.mem_cons.mp ht with h1 | h1
            · subst h1
              have hcanc : (t.status == TaskStatus.pending
                  || t.status == TaskStatus.scheduled) = false := by
                rcases Bool.eq_false_or_eq_true
                    (t.status == TaskStatus.pending || t.status == TaskStatus.scheduled)
                    with h2 | h2
                · exact absurd
                    (by rw [h2, Bool.and_true]; exact beq_iff_eq.mpr hti) hg
                · exact h2
              have := (Bool.or_eq_false_iff).mp hcanc
              exact ⟨by simpa using this.1, by simpa using this.2⟩
            · rw [List.map_cons] at hnd
              exact ih ts3 haux (List.nodup_cons.mp hnd).2 t h1 hti

/-- C10: after a successful `cancel_task(i)`, the task with id `i` left
in the active list has status `CANCELLED` and so fails `is_due` at every
instant; hence `get_next_task` never returns a task with that id, and
whenever `has_due_tasks` holds it is witnessed by a task with a
different id. -/
theorem C10_cancelled_never_due (i : String) (s s2 : SchedState)
    (hnd : (s.tasks.map ProactiveTask.id).Nodup)
    (h : cancelTask i s = (true, s2)) :
    (∀ t ∈ s2.tasks, t.id = i → ∀ now, t.isDue now = false) ∧
    (∀ now t2, getNextTask now s2 = some t2 → t2.id ≠ i) ∧
    (∀ now, hasDueTasks now s2 = true →
      ∃ t ∈ s2.tasks, t.id ≠ i ∧ t.isDue now = true) := by
  unfold cancelTask at h
  cases haux : cancelTaskAux i s.tasks with
  | none =>
      rw [haux] at h
      simp at h
  | some ts2 =>
      rw [haux] at h
      have hs2 : s2 = { s with tasks := ts2 } := by
        have := (Prod.mk.injEq _ _ _ _).mp h
        exact this.2.symm
      subst hs2
      have hspec := cancelTaskAux_some_spec i s.tasks ts2 haux hnd
      have hfail : ∀ t ∈ ts2, t.id = i → ∀ now, t.isDue now = false := by
        intro t ht hti now
        obtain ⟨h1, h2⟩ := hspec t ht hti
        simp [ProactiveTask.isDue, h1, h2]
      refine ⟨hfail, ?_, ?_⟩
      · intro now t2 hfind hti
        have hmem : t2 ∈ ts2 := List.mem_of_find?_eq_some hfind
        have hdue := List.find?_some hfind
        rw [hfail t2 hmem hti now] at hdue
        exact absurd hdue (by simp)
      · intro now h3
        obtain ⟨t, ht, hdue⟩ := List.any_eq_true.mp h3
        refine ⟨t, ht, ?_, hdue⟩
        intro hti
        rw [hfail t ht hti now] at hdue
        exact absurd hdue (by simp)

/-- Witness for C10: cancelling the concrete pending task and checking
its cancelled copy is not due at instant 7. -/
theorem C10_cancelled_never_due_witness :
    ProactiveTask.isDue { exTaskPending with status := .cancelled } 7 = false := by
  have h := C10_cancelled_never_due "t1" exQueueState
    { tasks := [{ exTaskPending with status := .cancelled }], history := [] }
    (by decide) (by rfl)
  exact h.1 { exTaskPending with status := .cancelled } (by decide) (by decide) 7

theorem replaceTask_map_id (t : ProactiveTask) (l : List ProactiveTask) :
    (replaceTask t l).map ProactiveTask.id = l.map ProactiveTask.id := by
  induction l with
  | nil => rfl
  | cons a as ih =>
      simp only [replaceTask, List.map_cons] at ih ⊢
      by_cases h : (a.id == t.id) = true
      · rw [if_pos h, ih, (beq_iff_eq.mp h).symm]
      · rw [if_neg h, ih]

theorem replaceTask_length (t : ProactiveTask) (l : List ProactiveTask) :
    (replaceTask t l).length = l.length := by
  simp [replaceTask]

theorem replaceTask_any_id (t : ProactiveTask) (x : String) (l : List ProactiveTask) :
    (replaceTask t l).any (fun u => u.id == x) = l.any (fun u => u.id == x) := by
  induction l with
  | nil => rfl
  | cons a as ih =>
      simp only [replaceTask, List.map_cons, List.any_cons] at ih ⊢
      by_cases h : (a.id == t.id) = true
      · rw [if_pos h, ih, (beq_iff_eq.mp h).symm]
      · rw [if_neg h, ih]

theorem filter_replaceTask (p : ProactiveTask → Bool) (t : ProactiveTask)
    (l : List ProactiveTask) (hcong : ∀ u, (u.id == t.id) = true → p u = false) :
    (replaceTask t l).filter p = l.filter p := by
  induction l with
  | nil => rfl
  | cons a as ih =>
      simp only [replaceTask, List.map_cons, List.filter_cons] at ih ⊢
      by_cases hc : (a.id == t.id) = true
      · have h1 : p t = false := hcong t (beq_iff_eq.mpr rfl)
        have h2 : p a = false := hcong a hc
        rw [if_pos hc]
        simp only [h1, h2, Bool.false_eq_true, if_false, ih]
      · rw [if_neg hc, ih]

theorem any_id_eq_false_of_fresh (x : String) (l : List ProactiveTask)
    (h : ∀ u ∈ l, u.id ≠ x) : l.any (fun u => u.id == x) = false := by
  simp only [List.any_eq_false]
  intro u hu
  simp [h u hu]

/-- C5: executing a recurring task with a (truthy) recurrence interval:
on success exactly one new task joins the active queue, carrying the
fresh id, the same type, title, description, priority, target file and
context, scheduled at the completion time plus the interval, while the
executed task itself leaves the queue; on failure the executed task
leaves the queue and no new task is added.  The hypotheses say the fresh
id is really fresh and the queue is below the cleanup cap. -/
theorem C5_recurring_respawn (startT finT : Int) (freshId r e : String)
    (task : ProactiveTask) (s : SchedState) (iv : Int)
    (hrec : task.recurring = true)
    (hiv : task.recurrenceInterval = some iv)
    (hiv0 : iv ≠ 0)
    (hlen : s.tasks.length < maxTasksInQueue)
    (hfresh : ∀ u ∈ s.tasks, u.id ≠ freshId)
    (hfid : freshId ≠ task.id) :
    ((executeTask startT finT freshId (Except.ok r) task s).1 = true ∧
     (executeTask startT finT freshId (Except.ok r) task s).2.tasks.Perm
       ({ id := freshId, type := task.type, title := task.title,
          description := task.description, scheduledTime := some (finT + iv),
          recurring := true, recurrenceInterval := some iv,
          priority := task.priority, status := .pending, createdAt := finT,
          startedAt := none, completedAt := none, executionTimeMs := none,
          result := none, error := none, targetFile := task.targetFile,
          context := task.context } :: s.tasks.filter (fun u => u.id != task.id))) ∧
    ((executeTask startT finT freshId (Except.error e) task s).1 = false ∧
     (executeTask startT finT freshId (Except.error e) task s).2.tasks
       = s.tasks.filter (fun u => u.id != task.id)) := by
  have hivb : (iv != 0) = true := by simpa using hiv0
  have hlen2 : ¬(maxTasksInQueue ≤ s.tasks.length) := Nat.not_le.mpr hlen
  refine ⟨⟨rfl, ?_⟩, ⟨rfl, ?_⟩⟩
  · simp only [executeTask, rescheduleRecurringTask, rescheduledTask, addTask,
      moveToHistory, tdTruthy, hrec, hiv, hivb, Bool.true_and, if_true]
    rw [replaceTask_any_id, replaceTask_any_id,
      any_id_eq_false_of_fresh freshId s.tasks hfresh]
    simp only [Bool.false_eq_true, if_false]
    rw [replaceTask_length, replaceTask_length, if_neg hlen2]
    refine ((List.perm_insertionSort taskLe _).filter _).trans ?_
    rw [List.filter_append, filter_replaceTask, filter_replaceTask]
    · have hb : (freshId != task.id) = true := by simpa using hfid
      simp only [List.filter_cons, List.filter_nil, hb, if_true]
      exact List.perm_append_singleton _ _
    · intro u hu
      simp [beq_iff_eq.mp hu]
    · intro u hu
      simp [beq_iff_eq.mp hu]
  · simp only [executeTask, moveToHistory]
    rw [filter_replaceTask, filter_replaceTask]
    · intro u hu
      simp [beq_iff_eq.mp hu]
    · intro u hu
      simp [beq_iff_eq.mp hu]

/-- A concrete recurring task (daily self-reflection, 24-hour interval). -/
def recTask : ProactiveTask :=
  { id := "rt1", type := .selfReflection, title := "Daily Self-Reflection",
    description := "reflect", scheduledTime := some 100, recurring := true,
    recurrenceInterval := some 86400000, priority := 8, status := .pending,
    createdAt := 0, startedAt := none, completedAt := none,
    executionTimeMs := none, result := none, error := none, targetFile := none,
    context := [] }

/-- A queue holding only the concrete recurring task. -/
def recState : SchedState :=
  { tasks := [recTask], history := [] }

/-- Witness for C5: executing the concrete recurring task at instants
100 and 200, with fresh id f1, in both the success and failure cases. -/
theorem C5_recurring_respawn_witness :
    ((executeTask 100 200 "f1" (Except.ok "done") recTask recState).1 = true ∧
     (executeTask 100 200 "f1" (Except.ok "done") recTask recState).2.tasks.Perm
       ({ id := "f1", type := recTask.type, title := recTask.title,
          description := recTask.description, scheduledTime := some (200 + 86400000),
          recurring := true, recurrenceInterval := some 86400000,
          priority := recTask.priority, status := .pending, createdAt := 200,
          startedAt := none, completedAt := none, executionTimeMs := none,
          result := none, error := none, targetFile := recTask.targetFile,
          context := recTask.context } :: recState.tasks.filter (fun u => u.id != recTask.id))) ∧
    ((executeTask 100 200 "f1" (Except.error "boom") recTask recState).1 = false ∧
     (executeTask 100 200 "f1" (Except.error "boom") recTask recState).2.tasks
       = recState.tasks.filter (fun u => u.id != recTask.id)) :=
  C5_recurring_respawn 100 200 "f1" "done" "boom" recTask recState 86400000 rfl rfl
    (by decide) (by decide) (by decide) (by decide)

theorem fireUpdate_id (now : Int) (tr : WakeupTrigger) :
    (fireUpdate now tr).id = tr.id := by
  unfold fireUpdate
  dsimp only
  split <;> rfl

theorem fireUpdate_type (now : Int) (tr : WakeupTrigger) :
    (fireUpdate now tr).type = tr.type := by
  unfold fireUpdate
  dsimp only
  split <;> rfl

theorem fireUpdate_preserves_disabled (now : Int) (tr : WakeupTrigger)
    (h : tr.enabled = false) : (fireUpdate now tr).enabled = false := by
  unfold fireUpdate
  dsimp only
  split
  · rfl
  · exact h

theorem fireUpdate_of_scheduled (now : Int) (tr : WakeupTrigger)
    (h : tr.type = .scheduled) : (fireUpdate now tr).enabled = false := by
  simp [fireUpdate, h]

theorem isDue_enabled (tr : WakeupTrigger) (now : Int)
    (h : tr.isDue now = true) : tr.enabled = true := by
  rcases Bool.eq_false_or_eq_true tr.enabled with h2 | h2
  · exact h2
  · rw [WakeupTrigger.isDue, if_pos h2] at h
    exact absurd h (by simp)

theorem pickHighest_mem (ts : List WakeupTrigger) :
    ∀ t : WakeupTrigger, pickHighest t ts ∈ t :: ts := by
  induction ts with
  | nil =>
      intro t
      exact List.mem_singleton.mpr rfl
  | cons u us ih =>
      intro t
      have hstep : pickHighest t (u :: us)
          = pickHighest (if t.priority < u.priority then u else t) us := rfl
      rw [hstep]
      have h2 := ih (if t.priority < u.priority then u else t)
      rcases List.mem_cons.mp h2 with h3 | h3
      · rw [h3]
        by_cases hc : t.priority < u.priority
        · rw [if_pos hc]
          exact List.mem_cons_of_mem _ (List.mem_cons_self _ _)
        · rw [if_neg hc]
          exact List.mem_cons_self _ _
      · exact List.mem_cons_of_mem _ (List.mem_cons_of_mem _ h3)

/-- Every trigger in the list with the given id is disabled. -/
def allDisabled (i : String) (ts : List WakeupTrigger) : Prop :=
  ∀ t ∈ ts, t.id = i → t.enabled = false

theorem checkTriggers_fst_spec (now : Int) (ts : List WakeupTrigger)
    (t2 : WakeupTrigger) (h : (checkTriggers now ts).1 = some t2) :
    ∃ fired ∈ ts, fired.isDue now = true ∧ t2 = fireUpdate now fired := by
  unfold checkTriggers at h
  cases hf : ts.filter (fun t => t.isDue now) with
  | nil =>
      rw [hf] at h
      exact absurd h (by simp)
  | cons d ds =>
      rw [hf] at h
      have hmem : pickHighest d ds ∈ ts.filter (fun t => t.isDue now) := by
        rw [hf]
        exact pickHighest_mem ds d
      refine ⟨pickHighest d ds, (List.mem_filter.mp hmem).1,
        (List.mem_filter.mp hmem).2, ?_⟩
      simpa using h.symm

theorem checkTriggers_ne_of_disabled (i : String) (now : Int)
    (ts : List WakeupTrigger) (h : allDisabled i ts) :
    ∀ t2, (checkTriggers now ts).1 = some t2 → t2.id ≠ i := by
  intro t2 h2 hti
  obtain ⟨fired, hmem, hdue, rfl⟩ := checkTriggers_fst_spec now ts t2 h2
  rw [fireUpdate_id] at hti
  have hen : fired.enabled = false := h fired hmem hti
  rw [isDue_enabled fired now hdue] at hen
  exact absurd hen (by simp)

theorem allDisabled_checkTriggers (i : String) (now : Int)
    (ts : List WakeupTrigger) (h : allDisabled i ts) :
    allDisabled i (checkTriggers now ts).2 := by
  unfold checkTriggers
  cases hf : ts.filter (fun t => t.isDue now) with
  | nil => exact h
  | cons d ds =>
      intro t ht hti
      obtain ⟨u, hu, rfl⟩ := List.mem_map.mp ht
      by_cases hc : (u.id == (pickHighest d ds).id) = true
      · rw [if_pos hc] at hti ⊢
        rw [fireUpdate_id] at hti
        exact fireUpdate_preserves_disabled now u (h u hu hti)
      · rw [if_neg hc] at hti ⊢
        exact h u hu hti

theorem neverFires_of_allDisabled (i : String) :
    ∀ (ns : List Int) (ts : List WakeupTrigger),
      allDisabled i ts → neverFires i ns ts := by
  intro ns
  induction ns with
  | nil =>
      intro ts h
      exact trivial
  | cons n ns ih =>
      intro ts h
      exact ⟨checkTriggers_ne_of_disabled i n ts h,
        ih _ (allDisabled_checkTriggers i n ts h)⟩

/-- C9: once `check_triggers` has returned a `SCHEDULED` (one-shot)
trigger, no later `check_triggers` call, at any sequence of instants,
ever returns a trigger with that id again: firing disables the one-shot
trigger and nothing re-enables it.  Trigger ids are assumed distinct, as
produced by the id counter. -/
theorem C9_scheduled_fires_once (now : Int) (ts ts2 : List WakeupTrigger)
    (tr : WakeupTrigger)
    (hnd : (ts.map WakeupTrigger.id).Nodup)
    (h : checkTriggers now ts = (some tr, ts2))
    (hsch : tr.type = .scheduled) :
    ∀ ns : List Int, neverFires tr.id ns ts2 := by
  have h1 : (checkTriggers now ts).1 = some tr := by rw [h]
  obtain ⟨fired, hmem, hdue, htr⟩ := checkTriggers_fst_spec now ts tr h1
  have hfty : fired.type = .scheduled := by
    rw [htr, fireUpdate_type] at hsch
    exact hsch
  have hid : tr.id = fired.id := by rw [htr, fireUpdate_id]
  have hts2 : ts2 = ts.map
      (fun u => if u.id == fired.id then fireUpdate now u else u) := by
    have h2 : (checkTriggers now ts).2 = ts2 := by rw [h]
    unfold checkTriggers at h2
    cases hf : ts.filter (fun t => t.isDue now) with
    | nil =>
        rw [hf] at h2
        have : (checkTriggers now ts).1 = none := by
          unfold checkTriggers
          rw [hf]
        rw [h1] at this
        exact absurd this (by simp)
    | cons d ds =>
        rw [hf] at h2
        have hfired : fired = pickHighest d ds := by
          have h3 : (checkTriggers now ts).1
              = some (fireUpdate now (pickHighest d ds)) := by
            unfold checkTriggers
            rw [hf]
          rw [h1] at h3
          have h4 : tr = fireUpdate now (pickHighest d ds) := by
            simpa using h3
          have hmem2 : pickHighest d ds ∈ ts.filter (fun t => t.isDue now) := by
            rw [hf]
            exact pickHighest_mem ds d
          have := List.inj_on_of_nodup_map hnd hmem (List.mem_filter.mp hmem2).1
          apply this
          rw [← fireUpdate_id now fired, ← htr, h4, fireUpdate_id]
        rw [hfired]
        exact h2.symm
  have hdis : allDisabled tr.id ts2 := by
    rw [hts2]
    intro t ht hti
    obtain ⟨u, hu, rfl⟩ := List.mem_map.mp ht
    by_cases hc : (u.id == fired.id) = true
    · rw [if_pos hc] at hti ⊢
      have hu2 : u = fired :=
        List.inj_on_of_nodup_map hnd hu hmem (beq_iff_eq.mp hc)
      rw [hu2]
      exact fireUpdate_of_scheduled now fired hfty
    · rw [if_neg hc] at hti ⊢
      exfalso
      rw [hid] at hti
      exact absurd (beq_iff_eq.mpr hti) hc
  intro ns
  exact neverFires_of_allDisabled tr.id ns ts2 hdis


/-- A concrete enabled one-shot scheduled trigger, due from instant 5. -/
def exTrigger : WakeupTrigger :=
  { id := "trigger_1", type := .scheduled, name := "Morning Wakeup",
    enabled := true, scheduledTime := some 5, interval := none,
    lastTriggered := none, priority := 7, reason := "Daily morning routine" }

/-- The state of the concrete trigger after it fires at instant 10. -/
def exTriggerFired : WakeupTrigger :=
  { exTrigger with lastTriggered := some 10, enabled := false }

/-- Witness for C9: after the concrete scheduled trigger fires at
instant 10, later checks at instants 11 and 12 never return it. -/
theorem C9_scheduled_fires_once_witness :
    neverFires "trigger_1" [11, 12] [exTriggerFired] :=
  C9_scheduled_fires_once 10 [exTrigger] [exTriggerFired] exTriggerFired
    (by decide) (by rfl) rfl [11, 12]
